import Mathlib

/-!
Shallow embedding of the movie-review catalog service in `src/app.py`.

The program ingests a JSON catalog of movies with sentiment-labelled
reviews, summarizes review text per sentiment by word frequency,
persists one movie row plus two summary rows per movie in a SQLite
store, and serves two read endpoints.

Modelling conventions:
* Python review records are dicts read with bracket lookup, so they are
  embedded as association lists of strings; a missing key yields the
  `KeyError` diagnostic Python would raise, carried in `Except`.
* The Okt morphological analyzer (`okt.pos(text, stem=True)`) is an
  external library; it is a parameter `okt : Tokenizer` that may fail,
  returning `(word, posTag)` pairs.  The Unicode word-character class of
  the regex `[^\w\s]` is likewise a parameter `W : Char → Bool`.
* `collections.Counter` over the accumulated word list is embedded by
  its observable behaviour: keys in first-insertion order, each paired
  with its final count.  CPython's `Counter.most_common(n)` is
  `heapq.nlargest(n, items, key=count)`, documented equivalent to a
  stable descending sort truncated to `n`; a stable insertion sort on
  the descending-count order models it.
* Python float ratios are embedded as exact rationals `ℚ`; the spec's
  1e-9 tolerance absorbs the difference.
* The SQLAlchemy store is a `DBState`; a run that raises before
  `db.commit()` leaves the store unchanged, so a failing import returns
  `Except.error` and no new state.
-/

namespace MovieApp

/-- A Python dict with string keys and string values, as used for the
review records of the ingested JSON (`{"리뷰내용": ..., "감정": ...}`). -/
abbrev StrDict := List (String × String)

/-- Python `d[k]`: the value stored at `k`, or the uncaught `KeyError`
diagnostic naming only the missing key, exactly as Python prints it. -/
def dictGet (d : StrDict) (k : String) : Except String String :=
  match d.find? (fun kv => kv.1 == k) with
  | some kv => Except.ok kv.2
  | none => Except.error ("KeyError: '" ++ k ++ "'")

/-- One token of the morphological analyzer: a (word, POS tag) pair as
returned by `okt.pos(text, stem=True)`. -/
abbrev Token := String × String

/-- The external Okt analyzer: deterministic, may fail on malformed text. -/
abbrev Tokenizer := String → Except String (List Token)

/-- `re.sub(r'[^\w\s]', '', text)`: keep word characters (the Unicode
class `\w`, supplied as `W`) and whitespace, drop the rest. -/
def stripNonWord (W : Char → Bool) (text : String) : String :=
  String.mk (text.toList.filter (fun c => W c || c.isWhitespace))

/-- `preprocess_text` (src/app.py:57-65): strip punctuation, run the
analyzer, keep the words tagged Noun, Adjective or Verb. -/
def preprocess_text (W : Char → Bool) (okt : Tokenizer) (text : String) :
    Except String (List String) := do
  let cleaned := stripNonWord W text
  let tokens ← okt cleaned
  pure ((tokens.filter
    (fun t => t.2 == "Noun" || t.2 == "Adjective" || t.2 == "Verb")).map
      (fun t => t.1))

/-- The accumulation loop of `get_top_words` (src/app.py:68-70):
`all_words.extend(preprocess_text(review['리뷰내용']))` over the reviews,
left to right, first failure aborting. -/
def collectWords (W : Char → Bool) (okt : Tokenizer) :
    List StrDict → Except String (List String)
  | [] => pure []
  | review :: rest => do
    let text ← dictGet review "리뷰내용"
    let ws ← preprocess_text W okt text
    let restWords ← collectWords W okt rest
    pure (ws ++ restWords)

/-- Keys of a Python dict built by repeated insertion, `seen` holding the
keys already inserted: each distinct element once, in order of first
occurrence. -/
def firstDedupAux (seen : List String) : List String → List String
  | [] => []
  | w :: ws =>
    if w ∈ seen then firstDedupAux seen ws
    else w :: firstDedupAux (w :: seen) ws

/-- Each distinct element of `ws` once, in order of first occurrence:
the key order of `Counter(ws)`. -/
def firstDedup (ws : List String) : List String := firstDedupAux [] ws

/-- `Counter(all_words).items()`: keys in first-insertion order, each
with its final count. -/
def counterItems (ws : List String) : List (String × Nat) :=
  (firstDedup ws).map (fun w => (w, ws.count w))

/-- Insert `p` into a descending-by-count list, after every entry of
strictly greater count and before every entry of count at most `p.2`. -/
def insertByCount (p : String × Nat) : List (String × Nat) → List (String × Nat)
  | [] => [p]
  | q :: qs => if p.2 < q.2 then q :: insertByCount p qs else p :: q :: qs

/-- Stable sort by descending count (insertion sort): entries of equal
count keep their input order. -/
def sortByCountDesc : List (String × Nat) → List (String × Nat)
  | [] => []
  | p :: ps => insertByCount p (sortByCountDesc ps)

/-- `Counter.most_common(n)`: the items stably sorted by descending
count, truncated to `n`.  CPython's `heapq.nlargest(n, items, key)` is
documented equivalent to `sorted(items, key, reverse=True)[:n]`, a
stable descending sort truncated to `n`. -/
def mostCommon (items : List (String × Nat)) (n : Nat) : List (String × Nat) :=
  (sortByCountDesc items).take n

/-- The position of the first occurrence of `w` in a word list (the length
of the list when `w` does not occur): the order in which `Counter` first
saw each word. -/
def firstPos (w : String) : List String → Nat
  | [] => 0
  | x :: t => if x == w then 0 else firstPos w t + 1

/-- `get_top_words` (src/app.py:67-72); `n` defaults to 10 in the source
and every caller uses the default. -/
def get_top_words (W : Char → Bool) (okt : Tokenizer) (reviews : List StrDict)
    (n : Nat) : Except String String := do
  let all_words ← collectWords W okt reviews
  pure (String.intercalate ", "
    ((mostCommon (counterItems all_words) n).map (fun p => p.1)))

/-- One list comprehension of `process_movie_data` (src/app.py:75-76):
keep the reviews whose `감정` field equals `label`, evaluating the field
lookup on every element in order, first `KeyError` aborting. -/
def filterSentiment (label : String) : List StrDict → Except String (List StrDict)
  | [] => pure []
  | r :: rs => do
    let s ← dictGet r "감정"
    let rest ← filterSentiment label rs
    pure (if s == label then r :: rest else rest)

/-- One element of the ingested JSON array: the movie metadata fields the
code reads by fixed key (영화명, 포스터, 상영시간, 개봉년도, 줄거리, 장르,
평점, 관객수) plus the embedded review list (리뷰). -/
structure MovieData where
  title : String
  poster_url : String
  running_time : String
  release_date : String
  synopsis : String
  genre : String
  rating : String
  audience : Int
  reviews : List StrDict
deriving DecidableEq

/-- The dict returned by `process_movie_data` (src/app.py:85-90). -/
structure ProcessedData where
  positive_summary : String
  negative_summary : String
  positive_ratio : ℚ
  negative_ratio : ℚ
deriving DecidableEq

/-- `process_movie_data` (src/app.py:74-90): partition into 긍정 and 부정
reviews, summarize each with top 10 words, and compute the two ratios
over `total_reviews = len(positive) + len(negative)` (0 when that total
is 0). -/
def process_movie_data (W : Char → Bool) (okt : Tokenizer)
    (movie_data : MovieData) : Except String ProcessedData := do
  let positive_reviews ← filterSentiment "긍정" movie_data.reviews
  let negative_reviews ← filterSentiment "부정" movie_data.reviews
  let positive_summary ← get_top_words W okt positive_reviews 10
  let negative_summary ← get_top_words W okt negative_reviews 10
  let total_reviews : Nat := positive_reviews.length + negative_reviews.length
  let positive_ratio : ℚ :=
    if total_reviews > 0 then (positive_reviews.length : ℚ) / total_reviews else 0
  let negative_ratio : ℚ :=
    if total_reviews > 0 then (negative_reviews.length : ℚ) / total_reviews else 0
  pure ⟨positive_summary, negative_summary, positive_ratio, negative_ratio⟩

/-- A row of the `movies` table (src/app.py:21-36), with the two
placeholder columns defaulted to "없음" by the schema. -/
structure MovieRow where
  id : Nat
  title : String
  poster_url : String
  age_limit : String
  running_time : String
  release_date : String
  synopsis : String
  recommended_movies : String
  genre : String
  rating : String
  audience : Int
deriving DecidableEq

/-- A row of the `reviews` table (src/app.py:38-47): one persisted
sentiment summary. -/
structure ReviewRow where
  id : Nat
  classification : String
  ratio : ℚ
  summary : String
  movie_id : Nat
deriving DecidableEq

/-- The persistent SQLite store: whether the schema exists, and the rows
of the two tables. -/
structure DBState where
  hasMoviesTable : Bool
  movies : List MovieRow
  reviews : List ReviewRow
deriving DecidableEq

/-- `create_tables` (src/app.py:49-55): create the schema only when the
`movies` table is absent; otherwise leave the store untouched. -/
def create_tables (db : DBState) : DBState :=
  if db.hasMoviesTable then db else ⟨true, db.movies, db.reviews⟩

/-- SQLite rowid assignment for an autoincrement primary key: one more
than the largest existing id. -/
def nextId (ids : List Nat) : Nat := ids.foldl max 0 + 1

/-- One iteration of the ingestion loop (src/app.py:102-131): process the
movie, add its movie row (id assigned at `db.flush()`) and its two
summary rows. -/
def importMovie (W : Char → Bool) (okt : Tokenizer) (db : DBState)
    (movie_data : MovieData) : Except String DBState := do
  let pd ← process_movie_data W okt movie_data
  let mid := nextId (db.movies.map (fun m => m.id))
  let movie : MovieRow := ⟨mid, movie_data.title, movie_data.poster_url, "없음",
    movie_data.running_time, movie_data.release_date, movie_data.synopsis,
    "없음", movie_data.genre, movie_data.rating, movie_data.audience⟩
  let rid := nextId (db.reviews.map (fun r => r.id))
  let positive_review : ReviewRow := ⟨rid, "긍정", pd.positive_ratio, pd.positive_summary, mid⟩
  let negative_review : ReviewRow := ⟨rid + 1, "부정", pd.negative_ratio, pd.negative_summary, mid⟩
  pure ⟨db.hasMoviesTable, db.movies ++ [movie],
    db.reviews ++ [positive_review, negative_review]⟩

/-- `load_and_process_data` (src/app.py:96-134) applied to the parsed
JSON array `data`: process the movies in order; `db.commit()` runs only
after the loop, so an exception anywhere leaves the store unchanged —
the `Except.error` result carries no new state. -/
def load_and_process_data (W : Char → Bool) (okt : Tokenizer)
    (data : List MovieData) (db : DBState) : Except String DBState :=
  data.foldlM (importMovie W okt) db

/-- The `__main__` startup sequence (src/app.py:173-175):
`create_tables()` then, unconditionally, `load_and_process_data()`. -/
def startupMain (W : Char → Bool) (okt : Tokenizer) (data : List MovieData)
    (db : DBState) : Except String DBState :=
  load_and_process_data W okt data (create_tables db)

/-- A leaf of the JSON response of `get_movie`. -/
inductive JsonVal where
  | str : String → JsonVal
  | int : Int → JsonVal
deriving DecidableEq

/-- One element of the `reviews` array of the `get_movie` response
(src/app.py:164-170). -/
structure ReviewOut where
  classification : String
  ratio : ℚ
  summary : String
deriving DecidableEq

/-- The success body of `get_movie` (src/app.py:153-171): the `movie`
JSON object with its keys in the order the dict literal writes them, and
the `reviews` array. -/
structure MovieResponse where
  movie : List (String × JsonVal)
  reviews : List ReviewOut
deriving DecidableEq

/-- `fastapi.HTTPException` as raised on the not-found path. -/
structure HTTPException where
  status_code : Nat
  detail : String
deriving DecidableEq

/-- `get_movie` (src/app.py:143-171).  `query(...).first()` is the first
matching row; the boolean component records whether `db.close()` ran on
that control path — the 404 raise on line 148 precedes it. -/
def get_movie (db : DBState) (movie_id : Nat) :
    Except HTTPException MovieResponse × Bool :=
  match db.movies.find? (fun m => m.id == movie_id) with
  | none => (Except.error ⟨404, "Movie not found"⟩, false)
  | some movie =>
    let reviews := db.reviews.filter (fun r => r.movie_id == movie_id)
    (Except.ok ⟨[("id", JsonVal.int movie.id),
        ("title", JsonVal.str movie.title),
        ("poster_url", JsonVal.str movie.poster_url),
        ("age_limit", JsonVal.str movie.age_limit),
        ("running_time", JsonVal.str movie.running_time),
        ("release_date", JsonVal.str movie.release_date),
        ("synopsis", JsonVal.str movie.synopsis),
        ("recommended_movies", JsonVal.str movie.recommended_movies)],
      reviews.map (fun r => ⟨r.classification, r.ratio, r.summary⟩)⟩, true)

/-- The two sentiment groups an aggregation result exposes, as
(label, ratio, summary) triples: `process_movie_data` returns exactly a
긍정 entry and a 부정 entry. -/
def resultGroups (d : ProcessedData) : List (String × ℚ × String) :=
  [("긍정", d.positive_ratio, d.positive_summary),
   ("부정", d.negative_ratio, d.negative_summary)]

/-- Substring test used to state what a diagnostic mentions. -/
def subListAt : List Char → List Char → Bool
  | pat, [] => pat.isEmpty
  | pat, c :: cs => pat.isPrefixOf (c :: cs) || subListAt pat cs

/-- `pat` occurs as a contiguous substring of `s`. -/
def strContains (s pat : String) : Bool :=
  subListAt pat.toList s.toList

/-! Concrete fixtures used to instantiate the theorems: a word class
accepting every character, deterministic analyzers, sample review
records, movies and store states. -/

/-- A word-character class accepting every character. -/
def Wtrue : Char → Bool := fun _ => true

/-- An analyzer producing no tokens. -/
def tokNull : Tokenizer := fun _ => Except.ok []

/-- An analyzer returning the whole cleaned text as a single noun. -/
def tokId : Tokenizer := fun s => Except.ok [(s, "Noun")]

/-- An analyzer whose morphological analysis fails on the text "BAD". -/
def tokFail : Tokenizer := fun s =>
  if s = "BAD" then Except.error "okt failure on malformed text" else Except.ok []

/-- An analyzer emitting a fixed token stream with a frequency tie
("b" and "a" both occur twice, "b" first) for the text "baabc". -/
def tokWords : Tokenizer := fun s =>
  if s = "baabc" then
    Except.ok [("b", "Noun"), ("a", "Noun"), ("a", "Noun"), ("b", "Noun"), ("c", "Noun")]
  else Except.ok []

/-- A review carrying a sentiment label outside the positive/negative domain. -/
def rNeutral : StrDict := [("감정", "중립"), ("리뷰내용", "soso")]

/-- A well-formed positive review. -/
def rPosGood : StrDict := [("감정", "긍정"), ("리뷰내용", "good")]

/-- A positive review with the same text as `rPosGood` but a different record
shape (key order, an extra field). -/
def rPosGoodExtra : StrDict := [("리뷰내용", "good"), ("감정", "긍정"), ("별점", "5")]

/-- A well-formed negative review. -/
def rNegBad : StrDict := [("감정", "부정"), ("리뷰내용", "bad")]

/-- A negative review with a different text than `rNegBad`. -/
def rNegAwful : StrDict := [("감정", "부정"), ("리뷰내용", "awful")]

/-- A review record lacking its text field `리뷰내용`. -/
def rNoText : StrDict := [("감정", "긍정")]

/-- A positive review whose text makes the `tokFail` analyzer fail. -/
def rBadText : StrDict := [("감정", "긍정"), ("리뷰내용", "BAD")]

/-- A movie object with fixed metadata and the given review list. -/
def mkMovie (title : String) (reviews : List StrDict) : MovieData :=
  ⟨title, "poster", "100분", "2023", "줄거리", "드라마", "4.5", 1000, reviews⟩

/-- An empty store whose schema exists. -/
def dbEmpty : DBState := ⟨true, [], []⟩

/-- A movie row already persisted before startup. -/
def movieRow1 : MovieRow :=
  ⟨1, "기존영화", "poster1", "없음", "100분", "2022", "줄거리", "없음", "드라마", "4.0", 500⟩

/-- A persisted positive summary row of `movieRow1`. -/
def reviewRow1 : ReviewRow := ⟨1, "긍정", 1, "재밌다", 1⟩

/-- A persisted negative summary row of `movieRow1`. -/
def reviewRow2 : ReviewRow := ⟨2, "부정", 0, "", 1⟩

/-- A store already populated with one movie and its two summary rows. -/
def dbPopulated : DBState := ⟨true, [movieRow1], [reviewRow1, reviewRow2]⟩

/-- The store produced by a successful startup run of one fresh movie over
`dbPopulated`: the import appends rows although the store was populated. -/
def dbGrown : DBState :=
  ⟨true,
   [movieRow1,
    ⟨2, "M1", "poster", "없음", "100분", "2023", "줄거리", "없음", "드라마", "4.5", 1000⟩],
   [reviewRow1, reviewRow2, ⟨3, "긍정", 0, "", 2⟩, ⟨4, "부정", 0, "", 2⟩]⟩

/-! Helper lemmas: computation rules of the `Except` monad as used by the
do-blocks above. -/

@[simp] theorem ok_bind {ε α β : Type} (a : α) (f : α → Except ε β) :
    (Except.ok a : Except ε α) >>= f = f a := rfl

@[simp] theorem error_bind {ε α β : Type} (e : ε) (f : α → Except ε β) :
    (Except.error e : Except ε α) >>= f = Except.error e := rfl

@[simp] theorem pure_eq_ok {ε α : Type} (a : α) :
    (pure a : Except ε α) = Except.ok a := rfl

@[simp] theorem map_ok {ε α β : Type} (f : α → β) (a : α) :
    f <$> (Except.ok a : Except ε α) = Except.ok (f a) := rfl

@[simp] theorem map_error {ε α β : Type} (f : α → β) (e : ε) :
    f <$> (Except.error e : Except ε α) = Except.error e := rfl

/-- C9: `get_top_words` of an empty review list returns the empty string for
every `top_n ≥ 1`, and a movie with an empty review list is not an error:
both sentiment classes receive ratio 0 and an empty summary. -/
theorem C9_theorem (W : Char → Bool) (okt : Tokenizer) (n : Nat) (hn : 1 ≤ n)
    (title pu rt rd sy g ra : String) (a : Int) :
    get_top_words W okt [] n = Except.ok "" ∧
    process_movie_data W okt ⟨title, pu, rt, rd, sy, g, ra, a, []⟩ =
      Except.ok ⟨"", "", 0, 0⟩ := by
  refine ⟨?_, rfl⟩
  simp [get_top_words, collectWords, mostCommon, counterItems, firstDedup,
    firstDedupAux, sortByCountDesc, List.take_nil, String.intercalate]

/-- C9 witness: the theorem applied at `top_n = 1` and concrete inputs. -/
theorem C9_witness :
    get_top_words Wtrue tokNull [] 1 = Except.ok "" ∧
    process_movie_data Wtrue tokNull ⟨"M", "P", "RT", "RD", "SY", "G", "RA", 0, []⟩ =
      Except.ok ⟨"", "", 0, 0⟩ :=
  C9_theorem Wtrue tokNull 1 (by decide) "M" "P" "RT" "RD" "SY" "G" "RA" 0

/-- C8 counterexample: on the not-found path of `get_movie` the session is
not released — `db.close()` is never reached when the 404 is raised. -/
theorem C8_counterexample :
    (get_movie dbEmpty 1).1 = Except.error ⟨404, "Movie not found"⟩ ∧
    (get_movie dbEmpty 1).2 = false :=
  ⟨rfl, rfl⟩

/-- C8 (amended): `get_movie` releases its store handle exactly on the
success path: the handle is closed iff the movie id was found; on the
not-found (404) exit path it is leaked. -/
theorem C8_theorem (db : DBState) (movie_id : Nat) :
    (get_movie db movie_id).2 =
      (db.movies.find? (fun m => m.id == movie_id)).isSome := by
  unfold get_movie
  cases db.movies.find? (fun m => m.id == movie_id) <;> rfl

/-- C5 counterexample: the success body of `get_movie` is not the full
metadata — the genre, rating and audience-count fields of the stored movie
are absent from the returned `movie` object. -/
theorem C5_counterexample :
    (get_movie dbPopulated 1).1 =
      Except.ok ⟨[("id", JsonVal.int 1),
          ("title", JsonVal.str "기존영화"),
          ("poster_url", JsonVal.str "poster1"),
          ("age_limit", JsonVal.str "없음"),
          ("running_time", JsonVal.str "100분"),
          ("release_date", JsonVal.str "2022"),
          ("synopsis", JsonVal.str "줄거리"),
          ("recommended_movies", JsonVal.str "없음")],
        [⟨"긍정", 1, "재밌다"⟩, ⟨"부정", 0, ""⟩]⟩ ∧
    movieRow1.genre = "드라마" ∧
    "genre" ∉ ["id", "title", "poster_url", "age_limit", "running_time",
      "release_date", "synopsis", "recommended_movies"] ∧
    "rating" ∉ ["id", "title", "poster_url", "age_limit", "running_time",
      "release_date", "synopsis", "recommended_movies"] ∧
    "audience" ∉ ["id", "title", "poster_url", "age_limit", "running_time",
      "release_date", "synopsis", "recommended_movies"] :=
  ⟨rfl, rfl, by decide, by decide, by decide⟩

/-- C5 (amended): when the id exists, `get_movie` returns the movie metadata
restricted to id, title, poster reference, age limit, runtime, release date,
synopsis and the recommended-movies placeholder — genre, rating and audience
count are omitted — together with the movie's sentiment summary rows, and the
handle is closed; when the id is absent it returns the distinct 404
"Movie not found" signal, never an empty result. -/
theorem C5_theorem (db : DBState) (movie_id : Nat) :
    (∀ m, db.movies.find? (fun mv => mv.id == movie_id) = some m →
      get_movie db movie_id =
        (Except.ok ⟨[("id", JsonVal.int m.id),
            ("title", JsonVal.str m.title),
            ("poster_url", JsonVal.str m.poster_url),
            ("age_limit", JsonVal.str m.age_limit),
            ("running_time", JsonVal.str m.running_time),
            ("release_date", JsonVal.str m.release_date),
            ("synopsis", JsonVal.str m.synopsis),
            ("recommended_movies", JsonVal.str m.recommended_movies)],
          (db.reviews.filter (fun r => r.movie_id == movie_id)).map
            (fun r => ⟨r.classification, r.ratio, r.summary⟩)⟩, true)) ∧
    (∀ body closed, get_movie db movie_id = (Except.ok body, closed) →
      "genre" ∉ body.movie.map (fun kv => kv.1) ∧
      "rating" ∉ body.movie.map (fun kv => kv.1) ∧
      "audience" ∉ body.movie.map (fun kv => kv.1)) ∧
    (db.movies.find? (fun mv => mv.id == movie_id) = none →
      get_movie db movie_id = (Except.error ⟨404, "Movie not found"⟩, false)) := by
  refine ⟨?_, ?_, ?_⟩
  · intro m hm
    simp [get_movie, hm]
  · intro body closed h
    unfold get_movie at h
    cases hm : db.movies.find? (fun mv => mv.id == movie_id) with
    | none => rw [hm] at h; simp at h
    | some m =>
      rw [hm] at h
      have hb : body.movie = [("id", JsonVal.int m.id),
          ("title", JsonVal.str m.title),
          ("poster_url", JsonVal.str m.poster_url),
          ("age_limit", JsonVal.str m.age_limit),
          ("running_time", JsonVal.str m.running_time),
          ("release_date", JsonVal.str m.release_date),
          ("synopsis", JsonVal.str m.synopsis),
          ("recommended_movies", JsonVal.str m.recommended_movies)] := by
        have := congrArg (fun p => p.1) h
        simp at this
        rw [← this]
      rw [hb]
      refine ⟨?_, ?_, ?_⟩ <;> simp
  · intro hm
    simp [get_movie, hm]

/-- C5 witness: the theorem applied to the populated store at an existing id
and to the empty store at an absent id. -/
theorem C5_witness :
    get_movie dbPopulated 1 =
      (Except.ok ⟨[("id", JsonVal.int movieRow1.id),
          ("title", JsonVal.str movieRow1.title),
          ("poster_url", JsonVal.str movieRow1.poster_url),
          ("age_limit", JsonVal.str movieRow1.age_limit),
          ("running_time", JsonVal.str movieRow1.running_time),
          ("release_date", JsonVal.str movieRow1.release_date),
          ("synopsis", JsonVal.str movieRow1.synopsis),
          ("recommended_movies", JsonVal.str movieRow1.recommended_movies)],
        (dbPopulated.reviews.filter (fun r => r.movie_id == 1)).map
          (fun r => ⟨r.classification, r.ratio, r.summary⟩)⟩, true) ∧
    get_movie dbEmpty 7 = (Except.error ⟨404, "Movie not found"⟩, false) :=
  ⟨(C5_theorem dbPopulated 1).1 movieRow1 rfl,
   (C5_theorem dbEmpty 7).2.2 rfl⟩

/-- C4 counterexample: a review lacking its text field does fail the run
fast, but the diagnostic is the bare `KeyError` naming only the missing
field — it identifies neither the movie (its title does not occur in the
message) nor the input file. -/
theorem C4_counterexample :
    load_and_process_data Wtrue tokNull [mkMovie "영화A" [rNoText]] dbEmpty =
      Except.error "KeyError: '리뷰내용'" ∧
    (mkMovie "영화A" [rNoText]).title = "영화A" ∧
    strContains "KeyError: '리뷰내용'" "영화A" = false ∧
    strContains "KeyError: '리뷰내용'" "data.json" = false :=
  ⟨rfl, rfl, by decide, by decide⟩

/-- C4 (amended): a review record lacking its text field fails the whole
ingestion run fast — the run aborts with the `KeyError`, nothing is
committed and the record is not silently skipped — and the diagnostic names
the missing field (only the field: not the file, not the movie). -/
theorem C4_theorem (W : Char → Bool) (okt : Tokenizer) (db : DBState)
    (title pu rt rd sy g ra : String) (a : Int) (r : StrDict)
    (hs : dictGet r "감정" = Except.ok "긍정")
    (ht : dictGet r "리뷰내용" = Except.error "KeyError: '리뷰내용'") :
    load_and_process_data W okt [⟨title, pu, rt, rd, sy, g, ra, a, [r]⟩] db =
      Except.error "KeyError: '리뷰내용'" ∧
    strContains "KeyError: '리뷰내용'" "리뷰내용" = true := by
  refine ⟨?_, by decide⟩
  simp [load_and_process_data, List.foldlM_cons, List.foldlM_nil, importMovie,
    process_movie_data, filterSentiment, hs, ht, get_top_words, collectWords]

/-- C4 witness: the theorem applied to the record `rNoText`, which has a
sentiment label but no text field. -/
theorem C4_witness :
    load_and_process_data Wtrue tokNull
      [⟨"영화A", "P", "RT", "RD", "SY", "G", "RA", 0, [rNoText]⟩] dbEmpty =
      Except.error "KeyError: '리뷰내용'" ∧
    strContains "KeyError: '리뷰내용'" "리뷰내용" = true :=
  C4_theorem Wtrue tokNull dbEmpty "영화A" "P" "RT" "RD" "SY" "G" "RA" 0 rNoText rfl rfl

/-- A successful `importMovie` keeps the schema flag and appends exactly one
movie row and two summary rows. -/
theorem importMovie_lengths (W : Char → Bool) (okt : Tokenizer) (db : DBState)
    (m : MovieData) (db' : DBState) (h : importMovie W okt db m = Except.ok db') :
    db'.hasMoviesTable = db.hasMoviesTable ∧
    db'.movies.length = db.movies.length + 1 ∧
    db'.reviews.length = db.reviews.length + 2 := by
  unfold importMovie at h
  cases hp : process_movie_data W okt m with
  | error e => rw [hp] at h; simp at h
  | ok pd =>
    rw [hp] at h
    simp at h
    rw [← h]
    simp

/-- A successful ingestion run appends one movie row and two summary rows
per dataset movie, and keeps the schema flag. -/
theorem load_lengths (W : Char → Bool) (okt : Tokenizer) (data : List MovieData) :
    ∀ db db', load_and_process_data W okt data db = Except.ok db' →
      db'.hasMoviesTable = db.hasMoviesTable ∧
      db'.movies.length = db.movies.length + data.length ∧
      db'.reviews.length = db.reviews.length + 2 * data.length := by
  induction data with
  | nil =>
    intro db db' h
    simp [load_and_process_data, List.foldlM_nil] at h
    rw [← h]
    simp
  | cons m ms ih =>
    intro db db' h
    unfold load_and_process_data at h
    rw [List.foldlM_cons] at h
    cases hm : importMovie W okt db m with
    | error e => rw [hm] at h; simp at h
    | ok db1 =>
      rw [hm] at h
      simp at h
      obtain ⟨e1, e2, e3⟩ := importMovie_lengths W okt db m db1 hm
      obtain ⟨f1, f2, f3⟩ := ih db1 db' h
      refine ⟨by rw [f1, e1], ?_, ?_⟩ <;> simp [f2, f3, e2, e3] <;> ring

/-- C6 counterexample: with the store already populated, a successful
startup run re-imports the dataset: it appends a movie row and two summary
rows instead of leaving the store untouched. -/
theorem C6_counterexample :
    dbPopulated.hasMoviesTable = true ∧
    startupMain Wtrue tokNull [mkMovie "M1" []] dbPopulated = Except.ok dbGrown ∧
    dbPopulated.movies.length = 1 ∧
    dbGrown.movies.length = 2 ∧
    dbPopulated.reviews.length = 2 ∧
    dbGrown.reviews.length = 4 :=
  ⟨rfl, rfl, rfl, rfl, rfl, rfl⟩

/-- C6 (amended): at startup the schema is created only when absent — a
populated store keeps its schema untouched — but the data import runs
unconditionally: a successful startup over an already-populated store still
appends one movie row and two summary rows per dataset movie. -/
theorem C6_theorem (W : Char → Bool) (okt : Tokenizer) (data : List MovieData)
    (db db' : DBState) (hpop : db.hasMoviesTable = true)
    (hrun : startupMain W okt data db = Except.ok db') :
    (∀ dbA : DBState, (create_tables dbA).hasMoviesTable = true) ∧
    create_tables db = db ∧
    db'.movies.length = db.movies.length + data.length ∧
    db'.reviews.length = db.reviews.length + 2 * data.length := by
  have hct : create_tables db = db := by simp [create_tables, hpop]
  unfold startupMain at hrun
  rw [hct] at hrun
  obtain ⟨-, h2, h3⟩ := load_lengths W okt data db db' hrun
  refine ⟨?_, hct, h2, h3⟩
  intro dbA
  unfold create_tables
  split
  · assumption
  · rfl

/-- C6 witness: the theorem applied to the populated store and a one-movie
dataset, its schema-creation conjunct instantiated at a store without the
schema. -/
theorem C6_witness :
    (create_tables ⟨false, [], []⟩).hasMoviesTable = true ∧
    create_tables dbPopulated = dbPopulated ∧
    dbGrown.movies.length = dbPopulated.movies.length + [mkMovie "M1" []].length ∧
    dbGrown.reviews.length = dbPopulated.reviews.length + 2 * [mkMovie "M1" []].length := by
  have h := C6_theorem Wtrue tokNull [mkMovie "M1" []] dbPopulated dbGrown rfl rfl
  exact ⟨h.1 ⟨false, [], []⟩, h.2.1, h.2.2.1, h.2.2.2⟩

/-- C7 counterexample: a morphological-analysis failure on one review's
text aborts the whole ingestion run — the run returns the analyzer's error
(so the following movie is never imported and nothing is committed), with
no warning-and-skip recovery. -/
theorem C7_counterexample :
    preprocess_text Wtrue tokFail "BAD" =
      Except.error "okt failure on malformed text" ∧
    load_and_process_data Wtrue tokFail
      [mkMovie "M1" [], mkMovie "M2" [rBadText], mkMovie "M3" []] dbEmpty =
      Except.error "okt failure on malformed text" :=
  ⟨rfl, rfl⟩

/-- C7 (amended): an error while processing one movie's reviews (such as a
morphological-analysis failure) aborts the entire ingestion run: whatever
movies follow are not processed and the run ends with that error — there is
no per-text skip or logged warning. -/
theorem C7_theorem (W : Char → Bool) (okt : Tokenizer)
    (pre post : List MovieData) (m : MovieData) (db db1 : DBState) (e : String)
    (h1 : load_and_process_data W okt pre db = Except.ok db1)
    (h2 : process_movie_data W okt m = Except.error e) :
    load_and_process_data W okt (pre ++ m :: post) db = Except.error e := by
  unfold load_and_process_data at h1 ⊢
  rw [List.foldlM_append, h1, ok_bind, List.foldlM_cons]
  have him : importMovie W okt db1 m = Except.error e := by
    unfold importMovie
    rw [h2, error_bind]
  rw [him, error_bind]

/-- C7 witness: the theorem applied to the dataset of `C7_counterexample`,
split around the movie whose review text makes the analyzer fail. -/
theorem C7_witness :
    load_and_process_data Wtrue tokFail
      ([mkMovie "M1" []] ++ mkMovie "M2" [rBadText] :: [mkMovie "M3" []]) dbEmpty =
      Except.error "okt failure on malformed text" :=
  C7_theorem Wtrue tokFail [mkMovie "M1" []] [mkMovie "M3" []]
    (mkMovie "M2" [rBadText]) dbEmpty
    ⟨true,
     [⟨1, "M1", "poster", "없음", "100분", "2023", "줄거리", "없음", "드라마", "4.5", 1000⟩],
     [⟨1, "긍정", 0, "", 1⟩, ⟨2, "부정", 0, "", 1⟩]⟩
    "okt failure on malformed text" rfl rfl

/-- C1 counterexample: a non-empty review list whose single review carries
the label 중립 (neither 긍정 nor 부정) aggregates to ratios 0 and 0 — their sum
is not within 1e-9 of 1.0. -/
theorem C1_counterexample :
    (mkMovie "영화A" [rNeutral]).reviews ≠ [] ∧
    process_movie_data Wtrue tokNull (mkMovie "영화A" [rNeutral]) =
      Except.ok ⟨"", "", 0, 0⟩ ∧
    ¬(|(ProcessedData.mk "" "" 0 0).positive_ratio +
        (ProcessedData.mk "" "" 0 0).negative_ratio - 1| ≤ 1 / 1000000000) := by
  refine ⟨by simp [mkMovie], rfl, ?_⟩
  simp [ProcessedData.positive_ratio, ProcessedData.negative_ratio]
  norm_num

/-- C1 (amended): the two ratios returned by `process_movie_data` sum to
exactly 1 when at least one review carries the 긍정 or 부정 label, and are
both 0 when no review does (in particular for an empty review list).
Reviews with any other label count toward neither the numerator nor the
denominator. -/
theorem C1_theorem (W : Char → Bool) (okt : Tokenizer) (md : MovieData)
    (d : ProcessedData) (p n : List StrDict)
    (hp : filterSentiment "긍정" md.reviews = Except.ok p)
    (hn : filterSentiment "부정" md.reviews = Except.ok n)
    (hd : process_movie_data W okt md = Except.ok d) :
    (0 < p.length + n.length → d.positive_ratio + d.negative_ratio = 1) ∧
    (p.length + n.length = 0 → d.positive_ratio = 0 ∧ d.negative_ratio = 0) := by
  unfold process_movie_data at hd
  rw [hp, ok_bind, hn, ok_bind] at hd
  cases hps : get_top_words W okt p 10 with
  | error e => rw [hps] at hd; simp at hd
  | ok ps =>
    rw [hps, ok_bind] at hd
    cases hns : get_top_words W okt n 10 with
    | error e => rw [hns] at hd; simp at hd
    | ok ns =>
      rw [hns, ok_bind] at hd
      simp only [pure_eq_ok, Except.ok.injEq] at hd
      rw [← hd]
      constructor
      · intro htot
        have hne : ((p.length + n.length : ℕ) : ℚ) ≠ 0 := by
          exact_mod_cast Nat.pos_iff_ne_zero.mp htot
        simp only [gt_iff_lt, htot, if_true]
        rw [div_add_div_same]
        push_cast
        exact div_self (by push_cast at hne; exact hne)
      · intro htot
        simp [htot]

/-- C1 witness: the theorem applied to one positive and one negative
review, where each ratio is 1/2. -/
theorem C1_witness :
    (0 < ([rPosGood] : List StrDict).length + ([rNegBad] : List StrDict).length →
      (ProcessedData.mk "good" "bad" (1/2) (1/2)).positive_ratio +
        (ProcessedData.mk "good" "bad" (1/2) (1/2)).negative_ratio = 1) ∧
    (([rPosGood] : List StrDict).length + ([rNegBad] : List StrDict).length = 0 →
      (ProcessedData.mk "good" "bad" (1/2) (1/2)).positive_ratio = 0 ∧
      (ProcessedData.mk "good" "bad" (1/2) (1/2)).negative_ratio = 0) :=
  C1_theorem Wtrue tokId (mkMovie "M" [rPosGood, rNegBad])
    ⟨"good", "bad", 1/2, 1/2⟩ [rPosGood] [rNegBad] rfl rfl rfl

/-- A review whose sentiment label differs from `label` is invisible to
`filterSentiment label`: removing it from the list leaves the result
unchanged. -/
theorem filterSentiment_drop (label l : String) (r : StrDict)
    (hl : dictGet r "감정" = Except.ok l) (hne : (l == label) = false) :
    ∀ pre post : List StrDict,
      filterSentiment label (pre ++ r :: post) = filterSentiment label (pre ++ post) := by
  intro pre
  induction pre with
  | nil =>
    intro post
    simp only [List.nil_append, filterSentiment, hl, ok_bind, hne]
    cases filterSentiment label post <;> rfl
  | cons q qs ih =>
    intro post
    simp only [List.cons_append, filterSentiment, List.append_eq]
    simp only [ih post]

/-- C2 counterexample: a review labelled 중립 does not form its own group —
the aggregation result is unchanged when it is removed (it is dropped), and
the result's groups are only 긍정 and 부정. -/
theorem C2_counterexample :
    dictGet rNeutral "감정" = Except.ok "중립" ∧
    process_movie_data Wtrue tokNull (mkMovie "M" [rNeutral]) =
      Except.ok ⟨"", "", 0, 0⟩ ∧
    process_movie_data Wtrue tokNull (mkMovie "M" []) =
      Except.ok ⟨"", "", 0, 0⟩ ∧
    "중립" ∉ (resultGroups ⟨"", "", 0, 0⟩).map (fun grp => grp.1) := by
  refine ⟨rfl, rfl, rfl, ?_⟩
  simp [resultGroups]

/-- C2 (amended): the aggregation result always contains exactly the 긍정
and 부정 groups — they are present even when absent from the input — and a
review carrying any other sentiment label is dropped: it joins no group,
is excluded from the ratio denominator, and removing it leaves the result
unchanged. -/
theorem C2_theorem (W : Char → Bool) (okt : Tokenizer)
    (t pu rt rd sy g ra : String) (a : Int) (pre post : List StrDict)
    (r : StrDict) (l : String) (d : ProcessedData)
    (hl : dictGet r "감정" = Except.ok l)
    (h1 : l ≠ "긍정") (h2 : l ≠ "부정") :
    process_movie_data W okt ⟨t, pu, rt, rd, sy, g, ra, a, pre ++ r :: post⟩ =
      process_movie_data W okt ⟨t, pu, rt, rd, sy, g, ra, a, pre ++ post⟩ ∧
    (process_movie_data W okt ⟨t, pu, rt, rd, sy, g, ra, a, pre ++ r :: post⟩ =
        Except.ok d →
      (resultGroups d).map (fun grp => grp.1) = ["긍정", "부정"] ∧
      l ∉ (resultGroups d).map (fun grp => grp.1)) := by
  have hpos := filterSentiment_drop "긍정" l r hl (beq_eq_false_iff_ne.mpr h1) pre post
  have hneg := filterSentiment_drop "부정" l r hl (beq_eq_false_iff_ne.mpr h2) pre post
  constructor
  · simp only [process_movie_data]
    simp only [hpos, hneg]
  · intro _
    constructor
    · rfl
    · simp [resultGroups]
      exact ⟨h1, h2⟩

/-- C2 witness: the theorem applied to the 중립-labelled review `rNeutral`
standing alone. -/
theorem C2_witness :
    process_movie_data Wtrue tokNull
      ⟨"M", "P", "RT", "RD", "SY", "G", "RA", 0, [] ++ rNeutral :: []⟩ =
      process_movie_data Wtrue tokNull
        ⟨"M", "P", "RT", "RD", "SY", "G", "RA", 0, [] ++ []⟩ ∧
    (process_movie_data Wtrue tokNull
        ⟨"M", "P", "RT", "RD", "SY", "G", "RA", 0, [] ++ rNeutral :: []⟩ =
        Except.ok ⟨"", "", 0, 0⟩ →
      (resultGroups ⟨"", "", 0, 0⟩).map (fun grp => grp.1) = ["긍정", "부정"] ∧
      "중립" ∉ (resultGroups ⟨"", "", 0, 0⟩).map (fun grp => grp.1)) :=
  C2_theorem Wtrue tokNull "M" "P" "RT" "RD" "SY" "G" "RA" 0 [] [] rNeutral "중립"
    ⟨"", "", 0, 0⟩ rfl (by decide) (by decide)

/-- `collectWords` reads a review only through its `리뷰내용` lookup: two
review lists with the same text projections collect the same words. -/
theorem collectWords_congr (W : Char → Bool) (okt : Tokenizer) :
    ∀ l1 l2 : List StrDict,
      l1.map (fun r => dictGet r "리뷰내용") = l2.map (fun r => dictGet r "리뷰내용") →
      collectWords W okt l1 = collectWords W okt l2 := by
  intro l1
  induction l1 with
  | nil =>
    intro l2 h
    have : l2 = [] := by
      cases l2 with
      | nil => rfl
      | cons s u => simp at h
    rw [this]
  | cons r t ih =>
    intro l2 h
    cases l2 with
    | nil => simp at h
    | cons s u =>
      simp only [List.map_cons, List.cons.injEq] at h
      obtain ⟨hrs, htu⟩ := h
      simp only [collectWords, hrs]
      simp only [ih u htu]

/-- `get_top_words` reads a review only through its `리뷰내용` lookup. -/
theorem get_top_words_congr (W : Char → Bool) (okt : Tokenizer)
    (l1 l2 : List StrDict) (n : Nat)
    (h : l1.map (fun r => dictGet r "리뷰내용") = l2.map (fun r => dictGet r "리뷰내용")) :
    get_top_words W okt l1 n = get_top_words W okt l2 n := by
  unfold get_top_words
  rw [collectWords_congr W okt l1 l2 h]

/-- C10: the summary of the positive group depends only on the texts of
the positive-labelled reviews (in order); likewise for the negative group.
Two inputs whose positive partitions have identical text projections get
identical positive summaries, whatever their other reviews are. -/
theorem C10_theorem (W : Char → Bool) (okt : Tokenizer) (md1 md2 : MovieData)
    (p1 p2 n1 n2 : List StrDict) (d1 d2 : ProcessedData)
    (hp1 : filterSentiment "긍정" md1.reviews = Except.ok p1)
    (hn1 : filterSentiment "부정" md1.reviews = Except.ok n1)
    (hp2 : filterSentiment "긍정" md2.reviews = Except.ok p2)
    (hn2 : filterSentiment "부정" md2.reviews = Except.ok n2)
    (hd1 : process_movie_data W okt md1 = Except.ok d1)
    (hd2 : process_movie_data W okt md2 = Except.ok d2) :
    (p1.map (fun r => dictGet r "리뷰내용") = p2.map (fun r => dictGet r "리뷰내용") →
      d1.positive_summary = d2.positive_summary) ∧
    (n1.map (fun r => dictGet r "리뷰내용") = n2.map (fun r => dictGet r "리뷰내용") →
      d1.negative_summary = d2.negative_summary) := by
  unfold process_movie_data at hd1 hd2
  rw [hp1, ok_bind, hn1, ok_bind] at hd1
  rw [hp2, ok_bind, hn2, ok_bind] at hd2
  cases hps1 : get_top_words W okt p1 10 with
  | error e => rw [hps1] at hd1; simp at hd1
  | ok ps1 =>
    rw [hps1, ok_bind] at hd1
    cases hns1 : get_top_words W okt n1 10 with
    | error e => rw [hns1] at hd1; simp at hd1
    | ok ns1 =>
      rw [hns1, ok_bind] at hd1
      simp only [pure_eq_ok, Except.ok.injEq] at hd1
      cases hps2 : get_top_words W okt p2 10 with
      | error e => rw [hps2] at hd2; simp at hd2
      | ok ps2 =>
        rw [hps2, ok_bind] at hd2
        cases hns2 : get_top_words W okt n2 10 with
        | error e => rw [hns2] at hd2; simp at hd2
        | ok ns2 =>
          rw [hns2, ok_bind] at hd2
          simp only [pure_eq_ok, Except.ok.injEq] at hd2
          rw [← hd1, ← hd2]
          constructor
          · intro htexts
            have := get_top_words_congr W okt p1 p2 10 htexts
            rw [hps1, hps2] at this
            simpa using this
          · intro htexts
            have := get_top_words_congr W okt n1 n2 10 htexts
            rw [hns1, hns2] at this
            simpa using this

/-- C10 witness: the theorem applied to two inputs whose positive
partitions carry the same single text "good" while their negative reviews
differ. -/
theorem C10_witness :
    (([rPosGood] : List StrDict).map (fun r => dictGet r "리뷰내용") =
        ([rPosGoodExtra] : List StrDict).map (fun r => dictGet r "리뷰내용") →
      (ProcessedData.mk "good" "bad" (1/2) (1/2)).positive_summary =
        (ProcessedData.mk "good" "awful" (1/2) (1/2)).positive_summary) ∧
    (([rNegBad] : List StrDict).map (fun r => dictGet r "리뷰내용") =
        ([rNegAwful] : List StrDict).map (fun r => dictGet r "리뷰내용") →
      (ProcessedData.mk "good" "bad" (1/2) (1/2)).negative_summary =
        (ProcessedData.mk "good" "awful" (1/2) (1/2)).negative_summary) :=
  C10_theorem Wtrue tokId (mkMovie "A" [rPosGood, rNegBad])
    (mkMovie "B" [rPosGoodExtra, rNegAwful])
    [rPosGood] [rPosGoodExtra] [rNegBad] [rNegAwful]
    ⟨"good", "bad", 1/2, 1/2⟩ ⟨"good", "awful", 1/2, 1/2⟩
    rfl rfl rfl rfl rfl rfl

/-! Lemmas for the summarizer's ranking: `sortByCountDesc` is a stable
descending sort, `firstDedup` lists keys in first-occurrence order. -/

theorem mem_insertByCount (p : String × Nat) (l : List (String × Nat)) (x : String × Nat) :
    x ∈ insertByCount p l ↔ x = p ∨ x ∈ l := by
  induction l with
  | nil => simp [insertByCount]
  | cons q qs ih =>
    by_cases h : p.2 < q.2
    · simp only [insertByCount, if_pos h, List.mem_cons, ih]
      tauto
    · simp only [insertByCount, if_neg h, List.mem_cons]

theorem perm_insertByCount (p : String × Nat) (l : List (String × Nat)) :
    (insertByCount p l).Perm (p :: l) := by
  induction l with
  | nil => simp [insertByCount]
  | cons q qs ih =>
    unfold insertByCount
    split
    · exact (ih.cons q).trans (List.Perm.swap p q qs)
    · exact List.Perm.refl _

theorem perm_sortByCountDesc (l : List (String × Nat)) :
    (sortByCountDesc l).Perm l := by
  induction l with
  | nil => exact List.Perm.refl _
  | cons p ps ih =>
    exact (perm_insertByCount p (sortByCountDesc ps)).trans (ih.cons p)

theorem sorted_insertByCount (p : String × Nat) (l : List (String × Nat))
    (h : l.Pairwise (fun a b => b.2 ≤ a.2)) :
    (insertByCount p l).Pairwise (fun a b => b.2 ≤ a.2) := by
  induction l with
  | nil => simp [insertByCount]
  | cons q qs ih =>
    rw [List.pairwise_cons] at h
    obtain ⟨hq, hqs⟩ := h
    unfold insertByCount
    split
    · rename_i hlt
      rw [List.pairwise_cons]
      constructor
      · intro x hx
        rcases (mem_insertByCount p qs x).mp hx with hxp | hxq
        · rw [hxp]; omega
        · exact hq x hxq
      · exact ih hqs
    · rename_i hge
      rw [List.pairwise_cons]
      constructor
      · intro x hx
        rcases List.mem_cons.mp hx with hxq | hxqs
        · rw [hxq]; omega
        · have := hq x hxqs; omega
      · rw [List.pairwise_cons]
        exact ⟨hq, hqs⟩

theorem sorted_sortByCountDesc (l : List (String × Nat)) :
    (sortByCountDesc l).Pairwise (fun a b => b.2 ≤ a.2) := by
  induction l with
  | nil => simp [sortByCountDesc]
  | cons p ps ih => exact sorted_insertByCount p (sortByCountDesc ps) ih

theorem self_sublist_insertByCount (p : String × Nat) (m : List (String × Nat)) :
    m.Sublist (insertByCount p m) := by
  induction m with
  | nil => simp [insertByCount]
  | cons q qs ih =>
    unfold insertByCount
    split
    · exact ih.cons₂ q
    · exact (List.Sublist.refl (q :: qs)).cons p

theorem sublist_insertByCount (p : String × Nat) (l m : List (String × Nat))
    (h : l.Sublist m) : l.Sublist (insertByCount p m) :=
  h.trans (self_sublist_insertByCount p m)

theorem pair_sublist_insert_of_le (p y : String × Nat) (m : List (String × Nat))
    (hsorted : m.Pairwise (fun a b => b.2 ≤ a.2)) (hy : y ∈ m) (hle : y.2 ≤ p.2) :
    ([p, y] : List (String × Nat)).Sublist (insertByCount p m) := by
  induction m with
  | nil => cases hy
  | cons q qs ih =>
    rw [List.pairwise_cons] at hsorted
    obtain ⟨hq, hqs⟩ := hsorted
    unfold insertByCount
    split
    · rename_i hlt
      rcases List.mem_cons.mp hy with hyq | hyqs
      · rw [hyq] at hle; omega
      · exact (ih hqs hyqs).cons q
    · exact (List.singleton_sublist.mpr hy).cons₂ p

theorem stable_sortByCountDesc (x y : String × Nat) (l : List (String × Nat))
    (h : ([x, y] : List (String × Nat)).Sublist l) (hle : y.2 ≤ x.2) :
    ([x, y] : List (String × Nat)).Sublist (sortByCountDesc l) := by
  induction l with
  | nil => cases h
  | cons p ps ih =>
    cases h with
    | cons _ h' =>
      exact sublist_insertByCount p _ _ (ih h')
    | cons₂ _ h' =>
      have hy : y ∈ sortByCountDesc ps :=
        (perm_sortByCountDesc ps).mem_iff.mpr (List.singleton_sublist.mp h')
      exact pair_sublist_insert_of_le x y (sortByCountDesc ps)
        (sorted_sortByCountDesc ps) hy hle

theorem not_pair_sublist_both {α : Type} (l : List α) (a b : α) (hnd : l.Nodup)
    (h1 : ([a, b] : List α).Sublist l) (h2 : ([b, a] : List α).Sublist l) : False := by
  induction l with
  | nil => cases h1
  | cons c t ih =>
    rw [List.nodup_cons] at hnd
    obtain ⟨hc, hnd'⟩ := hnd
    cases h1 with
    | cons _ h1' =>
      cases h2 with
      | cons _ h2' => exact ih hnd' h1' h2'
      | cons₂ _ h2' =>
        exact hc (h1'.subset (by simp))
    | cons₂ _ h1' =>
      cases h2 with
      | cons _ h2' =>
        exact hc (h2'.subset (by simp))
      | cons₂ _ h2' =>
        exact hc (List.singleton_sublist.mp h1')

theorem pair_sublist_or {α : Type} (l : List α) (a b : α)
    (ha : a ∈ l) (hb : b ∈ l) (hne : a ≠ b) :
    ([a, b] : List α).Sublist l ∨ ([b, a] : List α).Sublist l := by
  induction l with
  | nil => cases ha
  | cons c t ih =>
    rcases List.mem_cons.mp ha with hac | hat
    · have hbt : b ∈ t := by
        rcases List.mem_cons.mp hb with hbc | hbt
        · rw [hac] at hne; rw [hbc] at hne; exact absurd rfl hne
        · exact hbt
      left
      rw [hac]
      exact (List.singleton_sublist.mpr hbt).cons₂ c
    · rcases List.mem_cons.mp hb with hbc | hbt
      · right
        rw [hbc]
        exact (List.singleton_sublist.mpr hat).cons₂ c
      · rcases ih hat hbt with h | h
        · exact Or.inl (h.cons c)
        · exact Or.inr (h.cons c)

theorem pair_sublist_get {α : Type} (l : List α) :
    ∀ i j (hi : i < l.length) (hj : j < l.length), i < j →
      ([l.get ⟨i, hi⟩, l.get ⟨j, hj⟩] : List α).Sublist l := by
  induction l with
  | nil => intro i j hi hj hij; cases hi
  | cons p t ih =>
    intro i j hi hj hij
    cases i with
    | zero =>
      cases j with
      | zero => cases hij
      | succ jj =>
        simp only [List.get_cons_zero, List.get_cons_succ]
        exact (List.singleton_sublist.mpr (t.get_mem _ _)).cons₂ p
    | succ ii =>
      cases j with
      | zero => cases hij
      | succ jj =>
        simp only [List.get_cons_succ]
        exact (ih ii jj _ _ (by omega)).cons p

theorem mem_firstDedupAux (x : String) :
    ∀ (ws seen : List String), x ∈ firstDedupAux seen ws → x ∈ ws ∧ x ∉ seen := by
  intro ws
  induction ws with
  | nil => intro seen h; cases h
  | cons w t ih =>
    intro seen h
    unfold firstDedupAux at h
    split at h
    · obtain ⟨h1, h2⟩ := ih seen h
      exact ⟨List.mem_cons_of_mem w h1, h2⟩
    · rcases List.mem_cons.mp h with hxw | hxt
      · rename_i hw
        rw [hxw]
        exact ⟨List.mem_cons_self w t, hw⟩
      · obtain ⟨h1, h2⟩ := ih (w :: seen) hxt
        refine ⟨List.mem_cons_of_mem w h1, ?_⟩
        intro hx
        exact h2 (List.mem_cons_of_mem w hx)

theorem nodup_firstDedupAux :
    ∀ (ws seen : List String), (firstDedupAux seen ws).Nodup := by
  intro ws
  induction ws with
  | nil => intro seen; simp [firstDedupAux]
  | cons w t ih =>
    intro seen
    unfold firstDedupAux
    split
    · exact ih seen
    · rw [List.nodup_cons]
      refine ⟨?_, ih (w :: seen)⟩
      intro hw
      exact (mem_firstDedupAux w t (w :: seen) hw).2 (List.mem_cons_self w seen)

theorem pair_firstDedupAux_firstPos (x y : String) :
    ∀ (ws seen : List String),
      ([x, y] : List String).Sublist (firstDedupAux seen ws) →
      firstPos x ws < firstPos y ws := by
  intro ws
  induction ws with
  | nil => intro seen h; cases h
  | cons w t ih =>
    intro seen h
    unfold firstDedupAux at h
    split at h
    · rename_i hw
      have hx := (mem_firstDedupAux x t seen (h.subset (by simp))).2
      have hy := (mem_firstDedupAux y t seen (h.subset (by simp))).2
      have hxw : (w == x) = false := by
        rcases hbx : w == x with _ | _
        · rfl
        · rw [beq_iff_eq] at hbx; rw [hbx] at hw; exact absurd hw hx
      have hyw : (w == y) = false := by
        rcases hby : w == y with _ | _
        · rfl
        · rw [beq_iff_eq] at hby; rw [hby] at hw; exact absurd hw hy
      simp [firstPos, hxw, hyw]
      have := ih seen h
      omega
    · rename_i hw
      cases h with
      | cons _ h' =>
        have hx := (mem_firstDedupAux x t (w :: seen) (h'.subset (by simp))).2
        have hy := (mem_firstDedupAux y t (w :: seen) (h'.subset (by simp))).2
        have hxw : (w == x) = false := by
          rcases hbx : w == x with _ | _
          · rfl
          · rw [beq_iff_eq] at hbx
            exact absurd (hbx ▸ List.mem_cons_self w seen) hx
        have hyw : (w == y) = false := by
          rcases hby : w == y with _ | _
          · rfl
          · rw [beq_iff_eq] at hby
            exact absurd (hby ▸ List.mem_cons_self w seen) hy
        simp [firstPos, hxw, hyw]
        have := ih (w :: seen) h'
        omega
      | cons₂ _ h' =>
        have hy := (mem_firstDedupAux y t (x :: seen)
          (List.singleton_sublist.mp h')).2
        have hyx : (x == y) = false := by
          rcases hby : x == y with _ | _
          · rfl
          · rw [beq_iff_eq] at hby
            exact absurd (hby ▸ List.mem_cons_self x seen) hy
        simp [firstPos, hyx]

theorem counterItems_nodup (ws : List String) : (counterItems ws).Nodup := by
  unfold counterItems firstDedup
  exact (nodup_firstDedupAux ws []).map
    (fun a b h => congrArg Prod.fst h)

theorem counterItems_map_fst (ws : List String) :
    (counterItems ws).map (fun p => p.1) = firstDedup ws := by
  unfold counterItems
  rw [List.map_map]
  exact List.map_id'' (fun _ => rfl) _

/-- C3: `get_top_words` ranks tokens by descending frequency — every ranked
entry carries the true count of its word in the accumulated token stream and
the counts are non-increasing — and ties are broken deterministically by the
order of first occurrence in the concatenated filtered token stream: among
entries of equal count, the earlier-ranked word first occurs earlier. -/
theorem C3_theorem (W : Char → Bool) (okt : Tokenizer) (reviews : List StrDict)
    (n : Nat) (all_words : List String)
    (h : collectWords W okt reviews = Except.ok all_words) :
    get_top_words W okt reviews n =
      Except.ok (String.intercalate ", "
        ((mostCommon (counterItems all_words) n).map (fun p => p.1))) ∧
    (∀ p ∈ mostCommon (counterItems all_words) n, p.2 = all_words.count p.1) ∧
    List.Pairwise (fun a b => b.2 ≤ a.2) (mostCommon (counterItems all_words) n) ∧
    (∀ i j (hi : i < (mostCommon (counterItems all_words) n).length)
       (hj : j < (mostCommon (counterItems all_words) n).length),
      i < j →
      ((mostCommon (counterItems all_words) n).get ⟨i, hi⟩).2 =
        ((mostCommon (counterItems all_words) n).get ⟨j, hj⟩).2 →
      firstPos ((mostCommon (counterItems all_words) n).get ⟨i, hi⟩).1 all_words <
        firstPos ((mostCommon (counterItems all_words) n).get ⟨j, hj⟩).1 all_words) := by
  refine ⟨?_, ?_, ?_, ?_⟩
  · unfold get_top_words
    rw [h, ok_bind]
    rfl
  · intro p hp
    have hp1 : p ∈ sortByCountDesc (counterItems all_words) :=
      (List.take_sublist _ _).subset hp
    have hp2 : p ∈ counterItems all_words :=
      (perm_sortByCountDesc (counterItems all_words)).mem_iff.mp hp1
    obtain ⟨w, hw, hwp⟩ := List.mem_map.mp hp2
    rw [← hwp]
  · exact List.Pairwise.sublist (List.take_sublist _ _) (sorted_sortByCountDesc _)
  · intro i j hi hj hij hcnt
    have hpair := pair_sublist_get (mostCommon (counterItems all_words) n) i j hi hj hij
    have hsub : ([(mostCommon (counterItems all_words) n).get ⟨i, hi⟩,
        (mostCommon (counterItems all_words) n).get ⟨j, hj⟩] : List (String × Nat)).Sublist
        (sortByCountDesc (counterItems all_words)) :=
      hpair.trans (List.take_sublist _ _)
    have hnds : (sortByCountDesc (counterItems all_words)).Nodup :=
      ((perm_sortByCountDesc _).nodup_iff).mpr (counterItems_nodup all_words)
    have hndp := List.Nodup.sublist hsub hnds
    have hab : (mostCommon (counterItems all_words) n).get ⟨i, hi⟩ ≠
        (mostCommon (counterItems all_words) n).get ⟨j, hj⟩ := by
      rw [List.nodup_cons] at hndp
      intro hx
      exact hndp.1 (by rw [hx]; exact List.mem_cons_self _ _)
    have ham : (mostCommon (counterItems all_words) n).get ⟨i, hi⟩ ∈ counterItems all_words :=
      (perm_sortByCountDesc (counterItems all_words)).mem_iff.mp
        (hsub.subset (List.mem_cons_self _ _))
    have hbm : (mostCommon (counterItems all_words) n).get ⟨j, hj⟩ ∈ counterItems all_words :=
      (perm_sortByCountDesc (counterItems all_words)).mem_iff.mp
        (hsub.subset (by simp))
    have horder : ([(mostCommon (counterItems all_words) n).get ⟨i, hi⟩,
        (mostCommon (counterItems all_words) n).get ⟨j, hj⟩] : List (String × Nat)).Sublist
        (counterItems all_words) := by
      rcases pair_sublist_or (counterItems all_words) _ _ ham hbm hab with hord | hord
      · exact hord
      · exfalso
        have hswap := stable_sortByCountDesc _ _ (counterItems all_words) hord
          (le_of_eq hcnt)
        exact not_pair_sublist_both _ _ _ hnds hsub hswap
    have hfst := horder.map (fun p => p.1)
    rw [counterItems_map_fst] at hfst
    exact pair_firstDedupAux_firstPos _ _ all_words [] hfst

/-- C3 witness: the theorem applied to one review whose token stream
"b a a b c" ties "b" and "a" at count 2, with "b" first; the ranking is
b, a, c and the tie is broken by first occurrence. -/
theorem C3_witness :
    get_top_words Wtrue tokWords [[("리뷰내용", "baabc")]] 10 =
      Except.ok (String.intercalate ", "
        ((mostCommon (counterItems ["b", "a", "a", "b", "c"]) 10).map (fun p => p.1))) ∧
    (2 : Nat) = List.count "b" ["b", "a", "a", "b", "c"] ∧
    List.Pairwise (fun a b => b.2 ≤ a.2)
      (mostCommon (counterItems ["b", "a", "a", "b", "c"]) 10) ∧
    firstPos "b" ["b", "a", "a", "b", "c"] < firstPos "a" ["b", "a", "a", "b", "c"] := by
  have h := C3_theorem Wtrue tokWords [[("리뷰내용", "baabc")]] 10
    ["b", "a", "a", "b", "c"] rfl
  exact ⟨h.1, h.2.1 ("b", 2) (by decide), h.2.2.1,
    h.2.2.2 0 1 (by decide) (by decide) (by decide) rfl⟩

end MovieApp
